import Mathlib

/-!
Verification of the tinylink URL-shortening service: a shallow embedding of
the short-code generator (`app/services/codes.py`), the sqlite-backed link
store (`app/db.py`, `app/repositories/sqlite.py`), the link service
(`app/services/link_service.py`) and the redirect handler
(`app/routers/redirect.py`), together with theorems checking the
specification's claims about them.

Timestamps are stored as ISO-8601 text; the embedding models Python's
`datetime.fromisoformat` / `datetime.isoformat` on the subset of the format
the service actually produces and consumes, with instants measured in
microseconds from the Unix epoch (UTC).
-/

namespace TinyLink

/-! ## Calendar and ISO-8601 text (model of Python `datetime`) -/

/-- Numeric value of a decimal digit character, `none` otherwise. -/
def digitVal (c : Char) : Option Nat :=
  if c.isDigit then some (c.toNat - 48) else none

/-- Read exactly two decimal digits from the front of a character list. -/
def read2 : List Char → Option (Nat × List Char)
  | a :: b :: rest =>
    match digitVal a, digitVal b with
    | some x, some y => some (x * 10 + y, rest)
    | _, _ => none
  | _ => none

/-- Read exactly four decimal digits from the front of a character list. -/
def read4 : List Char → Option (Nat × List Char)
  | a :: b :: c :: d :: rest =>
    match digitVal a, digitVal b, digitVal c, digitVal d with
    | some x, some y, some z, some w => some (((x * 10 + y) * 10 + z) * 10 + w, rest)
    | _, _, _, _ => none
  | _ => none

/-- Gregorian leap year. -/
def isLeap (y : Nat) : Bool :=
  y % 4 == 0 && (y % 100 != 0 || y % 400 == 0)

/-- Number of days in a month of a given year. -/
def daysInMonth (y m : Nat) : Nat :=
  if m == 2 then (if isLeap y then 29 else 28)
  else if m == 4 || m == 6 || m == 9 || m == 11 then 30
  else 31

/-- Days from the Unix epoch (1970-01-01) to the civil date `y-m-d`,
for years ≥ 1 (the four-digit years `datetime` accepts). -/
def daysFromCivil (y m d : Nat) : Int :=
  let y' := if m ≤ 2 then y - 1 else y
  let era := y' / 400
  let yoe := y' - era * 400
  let mp := if m > 2 then m - 3 else m + 9
  let doy := (153 * mp + 2) / 5 + d - 1
  let doe := yoe * 365 + yoe / 4 - yoe / 100 + doy
  (((era * 146097 + doe : Nat) : Int)) - 719468

/-- Civil date `(y, m, d)` of a day count from the Unix epoch
(valid for dates from year 0 on, which covers every instant the
service serializes). -/
def civilFromDays (z : Int) : Nat × Nat × Nat :=
  let z' := (z + 719468).toNat
  let era := z' / 146097
  let doe := z' % 146097
  let yoe := (doe - doe / 1460 + doe / 36524 - doe / 146096) / 365
  let doy := doe - (365 * yoe + yoe / 4 - yoe / 100)
  let mp := (5 * doy + 2) / 153
  let d := doy - (153 * mp + 2) / 5 + 1
  let m := if mp < 10 then mp + 3 else mp - 9
  let y := yoe + era * 400 + (if m ≤ 2 then 1 else 0)
  (y, m, d)

/-- Result of parsing ISO-8601 text, as Python's `datetime`: the wall-clock
fields (as microseconds from the epoch, read as if UTC) plus an optional
UTC offset in microseconds (`none` = naive datetime). -/
structure PyDT where
  wall : Int
  off : Option Int
deriving DecidableEq, Repr

/-- The instant a datetime denotes, treating a naive value as UTC
(the service forces `tzinfo=UTC` onto naive values before comparing). -/
def PyDT.instantUTC (dt : PyDT) : Int :=
  dt.wall - dt.off.getD 0

/-- Parse a fractional-seconds field after the dot: one to six digits,
scaled to microseconds. -/
def parseFrac (cs : List Char) : Option (Nat × List Char) :=
  let ds := cs.takeWhile Char.isDigit
  let rest := cs.dropWhile Char.isDigit
  if ds.length == 0 || decide (6 < ds.length) then none
  else some ((ds.foldl (fun acc c => acc * 10 + (c.toNat - 48)) 0) * 10 ^ (6 - ds.length), rest)

/-- Parse the trailing UTC-offset part, which must consume the rest of the
text: empty = naive, `Z` = UTC, or `±HH:MM`. Returns the offset in
microseconds. -/
def parseOffset : List Char → Option (Option Int)
  | [] => some none
  | ['Z'] => some (some 0)
  | c :: rest =>
    if c = '+' || c = '-' then
      match read2 rest with
      | some (h, ':' :: rest2) =>
        match read2 rest2 with
        | some (m, []) =>
          if h ≤ 23 && m ≤ 59 then
            some (some ((if c = '+' then (1 : Int) else -1) * ((h * 60 + m) * 60000000)))
          else none
        | _ => none
      | _ => none
    else none

/-- Combine parsed time-of-day fields with the offset tail. -/
def finishTime (h mi s us : Nat) (rest : List Char) : Option (Nat × Option Int) :=
  if h ≤ 23 && mi ≤ 59 && s ≤ 59 then
    match parseOffset rest with
    | some off => some ((((h * 60 + mi) * 60 + s) * 1000000 + us, off))
    | none => none
  else none

/-- Parse `HH:MM[:SS[.ffffff]]` plus an optional offset; returns
microseconds of day and the offset. -/
def parseTime (cs : List Char) : Option (Nat × Option Int) :=
  match read2 cs with
  | some (h, ':' :: rest1) =>
    match read2 rest1 with
    | some (mi, rest2) =>
      match rest2 with
      | ':' :: rest3 =>
        match read2 rest3 with
        | some (s, '.' :: rest5) =>
          match parseFrac rest5 with
          | some (us, rest6) => finishTime h mi s us rest6
          | none => none
        | some (s, rest4) => finishTime h mi s 0 rest4
        | none => none
      | _ => finishTime h mi 0 0 rest2
    | none => none
  | _ => none

/-- Model of Python's `datetime.fromisoformat` on the subset of ISO-8601
the service reads and writes: `YYYY-MM-DD`, optionally followed by a `T`
or space separator, `HH:MM[:SS[.ffffff]]`, and an optional offset.
Returns `none` where Python raises `ValueError`. -/
def fromisoformat (str : String) : Option PyDT :=
  match read4 str.toList with
  | some (y, '-' :: r2) =>
    match read2 r2 with
    | some (mo, '-' :: r4) =>
      match read2 r4 with
      | some (d, r5) =>
        if 1 ≤ y && 1 ≤ mo && mo ≤ 12 && 1 ≤ d && d ≤ daysInMonth y mo then
          let dateUs : Int := daysFromCivil y mo d * 86400000000
          match r5 with
          | [] => some { wall := dateUs, off := none }
          | sep :: r6 =>
            if sep = 'T' || sep = ' ' then
              match parseTime r6 with
              | some (tod, off) => some { wall := dateUs + (tod : Int), off := off }
              | none => none
            else none
        else none
      | none => none
    | _ => none
  | _ => none

/-- Left-pad the decimal rendering of `n` with zeros to width `w`. -/
def padNum (w n : Nat) : String :=
  let s := toString n
  String.mk (List.replicate (w - s.length) '0') ++ s

/-- Model of `datetime.now(UTC).isoformat()` at the instant `t`
(microseconds from the Unix epoch): `YYYY-MM-DDTHH:MM:SS[.ffffff]+00:00`,
with the fractional part omitted when zero, as Python does. -/
def isoOfInstant (t : Int) : String :=
  let usDay : Int := 86400000000
  let days := Int.ediv t usDay
  let ud := (Int.emod t usDay).toNat
  let ymd := civilFromDays days
  let sod := ud / 1000000
  let us := ud % 1000000
  padNum 4 ymd.1 ++ "-" ++ padNum 2 ymd.2.1 ++ "-" ++ padNum 2 ymd.2.2 ++ "T" ++
    padNum 2 (sod / 3600) ++ ":" ++ padNum 2 ((sod / 60) % 60) ++ ":" ++ padNum 2 (sod % 60) ++
    (if us == 0 then "" else "." ++ padNum 6 us) ++ "+00:00"

/-! ## Data model and store

One table `links(id, short_code, target_url, created_at, expires_at,
click_count, last_access_at)` with `short_code TEXT UNIQUE NOT NULL`,
`target_url TEXT NOT NULL`, `created_at TEXT NOT NULL`, the timestamps as
nullable ISO text and `click_count INTEGER NOT NULL DEFAULT 0`.
`id` is the AUTOINCREMENT rowid, modelled by the monotone `nextId`
counter. -/

/-- A row of the `links` table. -/
structure LinkRow where
  id : Nat
  short_code : String
  target_url : String
  created_at : String
  expires_at : Option String
  click_count : Nat
  last_access_at : Option String
deriving DecidableEq, Repr

/-- The sqlite database state. -/
structure Store where
  rows : List LinkRow
  nextId : Nat
deriving DecidableEq, Repr

/-- Constraint violations sqlite can raise on a write
(`sqlite3.IntegrityError`). -/
inductive DbErr where
  | notNull
  | unique
deriving DecidableEq, Repr

/-- Typed failures of the service layer: `ValueError` (validation),
`KeyError` (not found), `PermissionError` (expired), a propagated store
error, and the crash path where Python would hit a `TypeError` shaping a
missing row. -/
inductive SvcErr where
  | validation
  | notFound
  | expired
  | storage (e : DbErr)
  | crash
deriving DecidableEq, Repr

/-- HTTP-level failures of the redirect handler: 404, 410, and the
unhandled-exception path (500). -/
inductive HErr where
  | notFound
  | expired
  | internal
deriving DecidableEq, Repr

/-- Three-state field update marker: untouched (the `NOCHANGE` sentinel
object), or set to a value that may be an explicit null. -/
inductive Sentinel (α : Type) where
  | nochange
  | val (v : Option α)
deriving DecidableEq, Repr

/-! ## SqliteLinkRepository (`app/repositories/sqlite.py`)

Rows travel as dicts with the DB column `click_count` renamed to `clicks`
by `_row_to_dict`; here rows stay structured and the rename only matters
in the dict views defined below. -/

namespace Repo

/-- Input dict of `SqliteLinkRepository.create`. -/
structure CreateData where
  short_code : String
  target_url : String
  created_at : String
  expires_at : Option String
  clicks : Nat
deriving DecidableEq, Repr

/-- Partial-update dict accepted by `SqliteLinkRepository.update`: an outer
`some` means the key is present; an inner `none` is an explicit null. -/
structure UpdateData where
  target_url : Option (Option String) := none
  expires_at : Option (Option String) := none
  clicks : Option Nat := none
  last_access_at : Option (Option String) := none
deriving DecidableEq, Repr

/-- SqliteLinkRepository.create: INSERT with the UNIQUE constraint on
`short_code`, then re-select the inserted row. -/
def create (st : Store) (data : CreateData) : Except DbErr LinkRow × Store :=
  if st.rows.any (fun r => r.short_code == data.short_code) then
    (.error .unique, st)
  else
    let row : LinkRow :=
      { id := st.nextId, short_code := data.short_code, target_url := data.target_url,
        created_at := data.created_at, expires_at := data.expires_at,
        click_count := data.clicks, last_access_at := none }
    (.ok row, { rows := st.rows ++ [row], nextId := st.nextId + 1 })

/-- SqliteLinkRepository.get_by_code: SELECT * WHERE short_code = ?. -/
def get_by_code (st : Store) (code : String) : Option LinkRow :=
  st.rows.find? (fun r => r.short_code == code)

/-- Insert a row into a list kept sorted by descending `id`. -/
def insertDescById (r : LinkRow) : List LinkRow → List LinkRow
  | [] => [r]
  | a :: l => if a.id ≤ r.id then r :: a :: l else a :: insertDescById r l

/-- SqliteLinkRepository.list: SELECT ordered by id DESC with LIMIT and
OFFSET. -/
def list (st : Store) (limit : Nat := 100) (offset : Nat := 0) : List LinkRow :=
  ((st.rows.foldr insertDescById []).drop offset).take limit

/-- Apply the supplied fields of an update dict to a row (the SET clause).
The explicit-null `target_url` case is unreachable in `update`, which
fails on the NOT NULL constraint before applying it. -/
def applyData (d : UpdateData) (r : LinkRow) : LinkRow :=
  let r1 := match d.target_url with
    | some (some u) => { r with target_url := u }
    | _ => r
  let r2 := match d.expires_at with
    | some v => { r1 with expires_at := v }
    | none => r1
  let r3 := match d.clicks with
    | some n => { r2 with click_count := n }
    | none => r2
  match d.last_access_at with
  | some v => { r3 with last_access_at := v }
  | none => r3

/-- SqliteLinkRepository.update: UPDATE ... WHERE id = ?, then re-select.
With an empty SET list it just returns the current row. Setting
`target_url` to null trips the NOT NULL constraint whenever a row matches;
a statement that fails leaves the database untouched. -/
def update (st : Store) (link_id : Nat) (d : UpdateData) :
    Except DbErr (Option LinkRow) × Store :=
  if d.target_url.isNone && d.expires_at.isNone && d.clicks.isNone &&
      d.last_access_at.isNone then
    (.ok (st.rows.find? (fun r => r.id == link_id)), st)
  else if d.target_url == some none && st.rows.any (fun r => r.id == link_id) then
    (.error .notNull, st)
  else
    let st' : Store :=
      { st with rows := st.rows.map (fun r => if r.id == link_id then applyData d r else r) }
    (.ok (st'.rows.find? (fun r => r.id == link_id)), st')

/-- SqliteLinkRepository.delete: DELETE WHERE id = ?. -/
def delete (st : Store) (link_id : Nat) : Store :=
  { st with rows := st.rows.filter (fun r => !(r.id == link_id)) }

end Repo

/-! ## Legacy db module (`app/db.py`), used by the HTTP routers -/

namespace Db

/-- db.get_by_code. -/
def get_by_code (st : Store) (code : String) : Option LinkRow :=
  st.rows.find? (fun r => r.short_code == code)

/-- db.exists_code: SELECT 1 WHERE short_code = ? LIMIT 1. -/
def exists_code (st : Store) (code : String) : Bool :=
  st.rows.any (fun r => r.short_code == code)

/-- The SET clause of db.update_link for the fields marked for change.
The explicit-null `target_url` case is unreachable: `update_link` fails on
the NOT NULL constraint before applying it. -/
def applySets (tu ea : Sentinel String) (r : LinkRow) : LinkRow :=
  let r1 := match tu with
    | .val (some u) => { r with target_url := u }
    | _ => r
  match ea with
  | .nochange => r1
  | .val v => { r1 with expires_at := v }

/-- db.update_link: updates only the fields not carrying the NOCHANGE
sentinel, keyed by short code. With nothing to set it re-selects and
returns the current row; with no matching row the UPDATE affects zero rows
(`rowcount == 0`) and returns `none`; updating a matched row's
`target_url` to null fails on the NOT NULL constraint, leaving the
database untouched. -/
def update_link (st : Store) (short_code : String) (target_url : Sentinel String)
    (expires_at : Sentinel String) : Except DbErr (Option LinkRow) × Store :=
  if target_url = Sentinel.nochange ∧ expires_at = Sentinel.nochange then
    (.ok (get_by_code st short_code), st)
  else if st.rows.any (fun r => r.short_code == short_code) then
    if target_url = Sentinel.val none then
      (.error .notNull, st)
    else
      let st' : Store :=
        { st with rows := st.rows.map (fun r =>
            if r.short_code == short_code then applySets target_url expires_at r else r) }
      (.ok (get_by_code st' short_code), st')
  else
    (.ok none, st)

/-- db.delete_link: DELETE WHERE short_code = ?, reporting whether a row
was removed. -/
def delete_link (st : Store) (code : String) : Bool × Store :=
  (st.rows.any (fun r => r.short_code == code),
   { st with rows := st.rows.filter (fun r => !(r.short_code == code)) })

/-- db.increment_click: UPDATE links SET click_count = click_count + 1
WHERE short_code = ?. -/
def increment_click (st : Store) (code : String) : Store :=
  { st with rows := st.rows.map (fun r =>
      if r.short_code == code then { r with click_count := r.click_count + 1 } else r) }

/-- db.update_last_access: UPDATE links SET last_access_at = ?
WHERE short_code = ?. -/
def update_last_access (st : Store) (code : String) (iso : String) : Store :=
  { st with rows := st.rows.map (fun r =>
      if r.short_code == code then { r with last_access_at := some iso } else r) }

end Db

/-! ## Code generator (`app/services/codes.py`)

`secrets.choice(ALPHABET)` is a random draw; the embedding passes the draws
in as an oracle `picks : Nat → Nat → Fin 62`, where `picks t i` is the
character index drawn at position `i` of the `t`-th `generate_code` call
made by `generate_unique_code` (call `max_tries` being the fallback). -/

/-- string.ascii_letters + string.digits: the 62-character alphabet. -/
def ALPHABET : List Char :=
  "abcdefghijklmnopqrstuvwxyzABCDEFGHIJKLMNOPQRSTUVWXYZ0123456789".toList

theorem ALPHABET_length : ALPHABET.length = 62 := rfl

/-- generate_code: draw `length` characters from the alphabet via the
oracle `pick` and join them. -/
def generate_code (pick : Nat → Fin 62) (length : Nat := 6) : String :=
  String.mk ((List.range length).map (fun i => ALPHABET.get (Fin.cast ALPHABET_length.symm (pick i))))

/-- The retry loop of generate_unique_code: `remaining` tries left, `t`
tries already made. Exhausting the tries falls back to one unchecked
length-7 code. -/
def genUniqueFrom (picks : Nat → Nat → Fin 62) (exists_fn : String → Bool) :
    Nat → Nat → String
  | 0, t => generate_code (picks t) 7
  | remaining + 1, t =>
    let c := generate_code (picks t) 6
    if exists_fn c then genUniqueFrom picks exists_fn remaining (t + 1) else c

/-- generate_unique_code: up to `max_tries` length-6 candidates checked
against `exists_fn`, then the unchecked length-7 fallback. -/
def generate_unique_code (picks : Nat → Nat → Fin 62) (exists_fn : String → Bool)
    (max_tries : Nat := 5) : String :=
  genUniqueFrom picks exists_fn max_tries 0

/-! ## LinkService (`app/services/link_service.py`)

Operations thread the store state explicitly and return the service's
typed failures. The source reads the clock inside each call; the embedding
passes the call's current instant `now` (microseconds from epoch, UTC) as
a parameter, and `base` stands for the service's already-stripped
`base_url`. -/

/-- The public response shape produced by `LinkService._shape`. -/
structure LinkOut where
  short_code : String
  target_url : String
  short_url : String
  created_at : Option PyDT
  expires_at : Option PyDT
  click_count : Nat
  last_access_at : Option PyDT
deriving DecidableEq, Repr

/-- Python str.startswith on one prefix: the prefix's characters lead the
string's characters. -/
def startswith (s p : String) : Bool :=
  p.toList.isPrefixOf s.toList

namespace Svc

/-- LinkService._short_url. -/
def short_url (base code : String) : String :=
  base ++ "/" ++ code

/-- LinkService._parse_iso: `if not x` treats both a missing value and an
empty string as absent; a parse failure becomes `None`. -/
def parse_iso : Option String → Option PyDT
  | none => none
  | some s => if s = "" then none else fromisoformat s

/-- LinkService._shape: the public representation of a stored row. The
`clicks` key is always present in a repository dict, so the `.get` default
of 0 never fires. -/
def shape (base : String) (r : LinkRow) : LinkOut :=
  { short_code := r.short_code
    target_url := r.target_url
    short_url := short_url base r.short_code
    created_at := parse_iso (some r.created_at)
    expires_at := parse_iso r.expires_at
    click_count := r.click_count
    last_access_at := parse_iso r.last_access_at }

/-- Outcome of the repository insert inside LinkService.create: a store
error propagates untyped, a row is shaped. -/
def createFinish (base : String) : Except DbErr LinkRow × Store → Except SvcErr LinkOut × Store
  | (.error e, st') => (.error (.storage e), st')
  | (.ok row, st') => (.ok (shape base row), st')

/-- LinkService.create: validate the scheme, generate a collision-checked
code against the repository, insert with zero clicks and `created_at` set
to the current instant, and shape the inserted row. -/
def create (base : String) (picks : Nat → Nat → Fin 62) (st : Store) (now : Int)
    (target_url : String) (expires_at : Option String) : Except SvcErr LinkOut × Store :=
  if target_url == "" ||
      !(startswith target_url "http://" || startswith target_url "https://") then
    (.error .validation, st)
  else
    let code := generate_unique_code picks (fun c => (Repo.get_by_code st c).isSome) 5
    let now_iso := isoOfInstant now
    let data : Repo.CreateData :=
      { short_code := code, target_url := target_url, created_at := now_iso,
        expires_at := expires_at, clicks := 0 }
    createFinish base (Repo.create st data)

/-- LinkService.get: lookup and shape; `KeyError` when absent. -/
def get (base : String) (st : Store) (code : String) : Except SvcErr LinkOut :=
  match Repo.get_by_code st code with
  | none => .error .notFound
  | some rec => .ok (shape base rec)

/-- LinkService.list. -/
def list (base : String) (st : Store) (limit : Nat := 100) (offset : Nat := 0) :
    List LinkOut :=
  (Repo.list st limit offset).map (shape base)

/-- The target_url validation in LinkService.update: only a supplied
non-null value is checked; an explicit null is passed through. -/
def updateValidationFails (tu : Sentinel String) : Bool :=
  match tu with
  | .val (some u) => !(startswith u "http://" || startswith u "https://")
  | _ => false

/-- The update_data dict built by LinkService.update from a sentinel. -/
def sentinelField : Sentinel String → Option (Option String)
  | .nochange => none
  | .val v => some v

/-- Outcome of the repository update inside LinkService.update: a store
error propagates, a missing row is the Python `TypeError` crash path, and
a row is shaped. -/
def updateFinish (base : String) :
    Except DbErr (Option LinkRow) × Store → Except SvcErr LinkOut × Store
  | (.error e, st') => (.error (.storage e), st')
  | (.ok none, st') => (.error .crash, st')
  | (.ok (some row), st') => (.ok (shape base row), st')

/-- LinkService.update: lookup by code, build the partial update dict
(passing an explicit null target_url through), and apply it by id. -/
def update (base : String) (st : Store) (code : String)
    (target_url_sentinel expires_at_sentinel : Sentinel String) :
    Except SvcErr LinkOut × Store :=
  match Repo.get_by_code st code with
  | none => (.error .notFound, st)
  | some rec =>
    if updateValidationFails target_url_sentinel then
      (.error .validation, st)
    else
      let update_data : Repo.UpdateData :=
        { target_url := sentinelField target_url_sentinel,
          expires_at := sentinelField expires_at_sentinel }
      updateFinish base (Repo.update st rec.id update_data)

/-- LinkService.delete: lookup by code, delete by id. -/
def delete (st : Store) (code : String) : Except SvcErr Unit × Store :=
  match Repo.get_by_code st code with
  | none => (.error .notFound, st)
  | some rec => (.ok (), Repo.delete st rec.id)

/-- The expiry block of LinkService.resolve: a truthy `expires_at` is
parsed (a naive value is treated as UTC) and compared inclusively against
the current instant; any parse failure inside the guarded block is
fail-safe expired. An absent or empty value skips the check. -/
def isExpired (expires : Option String) (now : Int) : Bool :=
  match expires with
  | none => false
  | some s =>
    if s = "" then false
    else
      match fromisoformat s with
      | none => true
      | some dt => decide (dt.instantUTC ≤ now)

/-- Outcome of the repository update inside LinkService.resolve: the row
is returned as-is, without shaping. -/
def resolveFinish :
    Except DbErr (Option LinkRow) × Store → Except SvcErr LinkRow × Store
  | (.error e, st') => (.error (.storage e), st')
  | (.ok none, st') => (.error .crash, st')
  | (.ok (some row), st') => (.ok row, st')

/-- LinkService.resolve: lookup, expiry check, then one repository update
incrementing `clicks` and stamping `last_access_at`, returning the
re-selected row unshaped (the raw repository dict). -/
def resolve (st : Store) (now : Int) (code : String) : Except SvcErr LinkRow × Store :=
  match Repo.get_by_code st code with
  | none => (.error .notFound, st)
  | some rec =>
    if isExpired rec.expires_at now then
      (.error .expired, st)
    else
      let update_data : Repo.UpdateData :=
        { clicks := some (rec.click_count + 1),
          last_access_at := some (some (isoOfInstant now)) }
      resolveFinish (Repo.update st rec.id update_data)

end Svc

/-! ## Redirect handler (`app/routers/redirect.py`)

Works directly on the db module: lookup, a strict `now > expires` check
with no exception guard (a malformed `expires_at` propagates as a 500),
then two separate statements incrementing the click count and stamping the
last access. -/

namespace Db

/-- The expiry check of the redirect handler on a truthy `expires_at`:
`none` models the uncaught `ValueError` of a failed parse; the comparison
is strict (`now > expires`), unlike resolve's inclusive one. -/
def redirectExpiry (s : String) (now : Int) : Option Bool :=
  match fromisoformat s with
  | none => none
  | some dt => some (decide (now > dt.instantUTC))

/-- The expiry block of the redirect handler: a falsy (absent or empty)
`expires_at` proceeds; otherwise parse and compare. `some true` is the
410 path, `some false` proceeds, `none` is the uncaught parse failure. -/
def redirectCheck (expires : Option String) (now : Int) : Option Bool :=
  match expires with
  | none => some false
  | some s =>
    if s = "" then some false
    else redirectExpiry s now

/-- The success path of the redirect handler: two separate statements
increment the click count and stamp the last access. -/
def redirectHit (st : Store) (now : Int) (code : String) (rec : LinkRow) :
    Except HErr String × Store :=
  let st1 := increment_click st code
  let st2 := update_last_access st1 code (isoOfInstant now)
  (.ok rec.target_url, st2)

/-- GET /\x7bcode\x7d: 404 when absent, 410 when strictly past expiry, 500 on a
malformed `expires_at`, otherwise increment, stamp and redirect to the
target URL. -/
def redirect (st : Store) (now : Int) (code : String) : Except HErr String × Store :=
  match get_by_code st code with
  | none => (.error .notFound, st)
  | some rec =>
    match redirectCheck rec.expires_at now with
    | none => (.error .internal, st)
    | some true => (.error .expired, st)
    | some false => redirectHit st now code rec

end Db

/-! ## Views, operations and well-formedness -/

/-- Values of the Python dicts the layers pass around. -/
inductive Val where
  | vStr (v : String)
  | vNat (v : Nat)
  | vNull
deriving DecidableEq, Repr

/-- Nullable string as a dict value. -/
def optVal : Option String → Val
  | none => .vNull
  | some s => .vStr s

/-- The raw repository dict of a row, as produced by
`SqliteLinkRepository._row_to_dict` (note the `clicks` key and the absence
of any `short_url`). -/
def LinkRow.toDict (r : LinkRow) : List (String × Val) :=
  [("id", .vNat r.id), ("short_code", .vStr r.short_code),
   ("target_url", .vStr r.target_url), ("created_at", .vStr r.created_at),
   ("expires_at", optVal r.expires_at), ("clicks", .vNat r.click_count),
   ("last_access_at", optVal r.last_access_at)]

/-- Well-formed database: the UNIQUE constraint on `short_code` and the
primary key on `id` hold. -/
def StoreWF (st : Store) : Prop :=
  st.rows.Pairwise (fun a b => a.short_code ≠ b.short_code) ∧
    st.rows.Pairwise (fun a b => a.id ≠ b.id)

/-- A short code drawn from the service's alphabet with the service's
lengths: the regular-expression class [A-Za-z0-9]\x7b6,7\x7d. -/
def isAlnumCode (s : String) : Prop :=
  (s.length = 6 ∨ s.length = 7) ∧ ∀ c ∈ s.toList, c ∈ ALPHABET

/-- The public operations, for claims quantifying over all of them. -/
inductive SvcOp where
  | create (url : String) (ea : Option String)
  | get (code : String)
  | listOp (limit offset : Nat)
  | update (code : String) (tu ea : Sentinel String)
  | delete (code : String)
  | resolve (code : String)
  | redirect (code : String)

/-- Whether an operation is the redirect-resolution path. -/
def SvcOp.isClickPath : SvcOp → Bool
  | .resolve _ => true
  | .redirect _ => true
  | _ => false

/-- The store state after running an operation (a failed operation leaves
the store as it was). -/
def applyOp (base : String) (picks : Nat → Nat → Fin 62) (now : Int) (st : Store) :
    SvcOp → Store
  | .create url ea => (Svc.create base picks st now url ea).2
  | .get _ => st
  | .listOp _ _ => st
  | .update code tu ea => (Svc.update base st code tu ea).2
  | .delete code => (Svc.delete st code).2
  | .resolve code => (Svc.resolve st now code).2
  | .redirect code => (Db.redirect st now code).2

/-- The rows an operation keyed by `code` must not touch. -/
def othersByCode (code : String) (st : Store) : List LinkRow :=
  st.rows.filter (fun r => !(r.short_code == code))

/-! ## Concrete fixtures for witnesses and counterexamples -/

/-- A live link with no expiry. -/
def rowLive : LinkRow :=
  { id := 1, short_code := "abc123", target_url := "https://example.com",
    created_at := "2024-01-01T00:00:00+00:00", expires_at := none,
    click_count := 0, last_access_at := none }

/-- A link whose `expires_at` is the empty string. -/
def rowEmptyExp : LinkRow :=
  { rowLive with id := 2, short_code := "bcd234", expires_at := some "" }

/-- A link expired since 2020. -/
def rowExpired : LinkRow :=
  { rowLive with
    id := 3, short_code := "cde345",
    expires_at := some "2020-01-01T00:00:00+00:00" }

/-- One-row store holding the live link. -/
def stLive : Store := { rows := [rowLive], nextId := 4 }

/-- Two-row store holding the live link and the empty-string-expiry
link. -/
def stTwo : Store := { rows := [rowLive, rowEmptyExp], nextId := 4 }

/-- One-row store holding the empty-string-expiry link. -/
def stEmptyExp : Store := { rows := [rowEmptyExp], nextId := 4 }

/-- One-row store holding the expired link. -/
def stExpired : Store := { rows := [rowExpired], nextId := 4 }

/-- A fixed draw oracle: always the first alphabet character. -/
def picksA : Nat → Nat → Fin 62 := fun _ _ => ⟨0, by decide⟩

/-- The instant 2024-06-01T00:00:00Z in microseconds from the epoch. -/
def tNow : Int := 1717200000000000

/-- The configured base URL of the fixtures. -/
def base0 : String := "http://localhost:8000"

/-- The live link after one resolve at `tNow`. -/
def rowLiveHit : LinkRow :=
  { rowLive with click_count := rowLive.click_count + 1,
                 last_access_at := some (isoOfInstant tNow) }

/-- The empty-string-expiry link after one resolve at `tNow`. -/
def rowEmptyHit : LinkRow :=
  { rowEmptyExp with click_count := rowEmptyExp.click_count + 1,
                     last_access_at := some (isoOfInstant tNow) }

deriving instance DecidableEq for Except

instance (st : Store) : Decidable (StoreWF st) := by
  unfold StoreWF
  infer_instance

instance (s : String) : Decidable (isAlnumCode s) := by
  unfold isAlnumCode
  infer_instance

/-! ## Generic list lemmas for keyed updates -/

/-- Mapping a function that cannot change which elements satisfy `p`
commutes with `find? p`. -/
theorem find?_map_of_pred {α : Type} (p : α → Bool) (g : α → α)
    (hp : ∀ a, p (g a) = p a) :
    ∀ l : List α, (l.map g).find? p = (l.find? p).map g := by
  intro l
  induction l with
  | nil => rfl
  | cons a l ih =>
    by_cases ha : p a = true
    · simp [List.find?_cons, hp, ha]
    · rw [Bool.not_eq_true] at ha
      simp [List.find?_cons, hp, ha, ih]

/-- A map that fixes every element satisfying `p` and never changes
membership in `p` leaves the `p`-filtered list unchanged. -/
theorem filter_map_eq {α : Type} (p : α → Bool) (g : α → α) :
    ∀ l : List α, (∀ a ∈ l, p (g a) = p a) → (∀ a ∈ l, p a = true → g a = a) →
      (l.map g).filter p = l.filter p := by
  intro l
  induction l with
  | nil => intro _ _; rfl
  | cons a l ih =>
    intro h1 h2
    have ha1 := h1 a (by simp)
    by_cases ha : p a = true
    · have := h2 a (by simp) ha
      simp only [List.map_cons, List.filter_cons, ha1, ha, if_pos, this]
      rw [ih (fun x hx => h1 x (by simp [hx])) (fun x hx => h2 x (by simp [hx]))]
    · rw [Bool.not_eq_true] at ha
      simp only [List.map_cons, List.filter_cons, ha1, ha]
      exact ih (fun x hx => h1 x (by simp [hx])) (fun x hx => h2 x (by simp [hx]))

/-- Pre-filtering by `q` does not change a `p`-filter when every
`p`-element passes `q`. -/
theorem filter_filter_eq {α : Type} (p q : α → Bool) :
    ∀ l : List α, (∀ a ∈ l, p a = true → q a = true) →
      (l.filter q).filter p = l.filter p := by
  intro l
  induction l with
  | nil => intro _; rfl
  | cons a l ih =>
    intro h
    by_cases ha : p a = true
    · have hq := h a (by simp) ha
      simp only [List.filter_cons, hq, ha, if_pos]
      rw [ih (fun x hx => h x (by simp [hx]))]
    · rw [Bool.not_eq_true] at ha
      by_cases hq : q a = true
      · simp only [List.filter_cons, hq, ha, if_pos]
        exact ih (fun x hx => h x (by simp [hx]))
      · rw [Bool.not_eq_true] at hq
        simp only [List.filter_cons, hq, ha]
        exact ih (fun x hx => h x (by simp [hx]))

/-- In a list whose elements have pairwise distinct keys, `find?` on a
member's key returns that member. -/
theorem find?_key_of_mem {α κ : Type} (key : α → κ) [BEq κ] [LawfulBEq κ] :
    ∀ l : List α, l.Pairwise (fun a b => key a ≠ key b) →
      ∀ r ∈ l, l.find? (fun a => key a == key r) = some r := by
  intro l
  induction l with
  | nil => intro _ r hr; cases hr
  | cons a l ih =>
    intro hpw r hr
    rcases List.pairwise_cons.mp hpw with ⟨ha, hl⟩
    rcases List.mem_cons.mp hr with h | h
    · subst h
      simp [List.find?_cons]
    · have hne : (key a == key r) = false := by
        rw [beq_eq_false_iff_ne]
        exact ha r h
      simp only [List.find?_cons, hne]
      exact ih hl r h

/-- Two members of a list with pairwise distinct keys and equal keys are
the same element. -/
theorem eq_of_mem_key {α κ : Type} (key : α → κ) :
    ∀ l : List α, l.Pairwise (fun a b => key a ≠ key b) →
      ∀ a ∈ l, ∀ b ∈ l, key a = key b → a = b := by
  intro l hpw a ha b hb hk
  by_contra hne
  have hsym : Symmetric (fun x y : α => key x ≠ key y) := by
    intro x y h e
    exact h e.symm
  exact List.Pairwise.forall hsym hpw ha hb hne hk

/-! ## Structure of resolve -/

/-- The tail of resolve never produces the expired failure: only the
expiry guard does. -/
theorem resolveFinish_ne_expired (x : Except DbErr (Option LinkRow) × Store) :
    (Svc.resolveFinish x).1 ≠ Except.error SvcErr.expired := by
  rcases x with ⟨e | orow, st'⟩
  · simp [Svc.resolveFinish]
  · rcases orow with _ | row <;> simp [Svc.resolveFinish]

/-- The expiry block of resolve, characterized: it fires exactly on a
present, non-empty `expires_at` that fails to parse or parses to an
instant at or before `now`. -/
theorem isExpired_iff (e : Option String) (now : Int) :
    Svc.isExpired e now = true ↔
      ∃ s, e = some s ∧ s ≠ "" ∧
        (fromisoformat s = none ∨
          ∃ dt, fromisoformat s = some dt ∧ dt.instantUTC ≤ now) := by
  cases e with
  | none => simp [Svc.isExpired]
  | some s =>
    by_cases hs : s = ""
    · subst hs
      simp [Svc.isExpired]
    · simp only [Svc.isExpired, if_neg hs]
      cases hp : fromisoformat s with
      | none =>
        simp only [true_iff]
        exact ⟨s, rfl, hs, Or.inl hp⟩
      | some dt =>
        simp only [decide_eq_true_eq]
        constructor
        · intro hle
          exact ⟨s, rfl, hs, Or.inr ⟨dt, hp, hle⟩⟩
        · rintro ⟨s', hs', _, h⟩
          injection hs' with h1
          subst h1
          rcases h with h | ⟨dt', hdt', hle⟩
          · rw [hp] at h; cases h
          · rw [hp] at hdt'
            injection hdt' with h2
            subst h2
            exact hle

/-- C1 (amended: "present" must be read as present and non-empty, since
the source's truthiness test skips the expiry block on an empty string):
resolve fails with ExpiredError exactly when the record's `expires_at` is
a non-empty string that fails to parse (fail-safe) or parses to an instant
at or before the current instant (inclusive boundary); an absent, empty,
or strictly-future `expires_at` is never rejected as expired. -/
theorem c1_expiry_iff (st : Store) (now : Int) (code : String) (rec : LinkRow)
    (hrec : Repo.get_by_code st code = some rec) :
    (Svc.resolve st now code).1 = Except.error SvcErr.expired ↔
      ∃ s, rec.expires_at = some s ∧ s ≠ "" ∧
        (fromisoformat s = none ∨
          ∃ dt, fromisoformat s = some dt ∧ dt.instantUTC ≤ now) := by
  rw [← isExpired_iff rec.expires_at now]
  unfold Svc.resolve
  rw [hrec]
  cases hie : Svc.isExpired rec.expires_at now with
  | true => simp [hie]
  | false =>
    simp only [hie, Bool.false_eq_true, if_false, iff_false]
    exact resolveFinish_ne_expired _

/-- C1 counterexample to the claim as stated: a stored link whose
`expires_at` is present (the empty string) and unparsable, so the claim
demands an ExpiredError, yet resolve succeeds, because the source's
truthiness test treats the empty string like an absent value. -/
theorem c1_counterexample :
    rowEmptyExp.expires_at = some "" ∧ fromisoformat "" = none ∧
      Repo.get_by_code stEmptyExp "bcd234" = some rowEmptyExp ∧
      (Svc.resolve stEmptyExp tNow "bcd234").1 = Except.ok rowEmptyHit :=
  ⟨rfl, rfl, rfl, rfl⟩

/-- C1 witness: a link that expired in 2020 is rejected as expired when
resolved in 2024. -/
theorem c1_witness :
    (Svc.resolve stExpired tNow "cde345").1 = Except.error SvcErr.expired :=
  (c1_expiry_iff stExpired tNow "cde345" rowExpired rfl).mpr
    ⟨"2020-01-01T00:00:00+00:00", rfl, by decide,
      Or.inr ⟨{ wall := 1577836800000000, off := some 0 }, rfl, by decide⟩⟩

/-- applyData never changes the row id. -/
theorem applyData_id (d : Repo.UpdateData) (r : LinkRow) :
    (Repo.applyData d r).id = r.id := by
  rcases d with ⟨(_ | (_ | u)), (_ | ev), (_ | n), (_ | lv)⟩ <;> rfl

/-- applyData never changes the short code. -/
theorem applyData_short_code (d : Repo.UpdateData) (r : LinkRow) :
    (Repo.applyData d r).short_code = r.short_code := by
  rcases d with ⟨(_ | (_ | u)), (_ | ev), (_ | n), (_ | lv)⟩ <;> rfl

/-- The repository update issued by resolve, computed: one statement
setting the click count and the last access on the row with the given id,
returning the re-selected row. -/
theorem repo_update_resolve_eq (st : Store) (lid : Nat) (n : Nat) (la : Option String) :
    Repo.update st lid
        { target_url := none, expires_at := none, clicks := some n,
          last_access_at := some la } =
      (Except.ok ((st.rows.map (fun r =>
          if r.id == lid then { r with click_count := n, last_access_at := la } else r)).find?
            (fun r => r.id == lid)),
       { st with rows := st.rows.map (fun r =>
          if r.id == lid then { r with click_count := n, last_access_at := la } else r) }) :=
  rfl

/-- C2: a successful resolve increments the click count by exactly one and
stamps the last access with the current instant in the same repository
update, and the record it returns already carries the post-increment
values, in agreement with the stored row. -/
theorem c2_resolve_success (st : Store) (now : Int) (code : String) (rec : LinkRow)
    (hwf : StoreWF st) (hrec : Repo.get_by_code st code = some rec)
    (hexp : Svc.isExpired rec.expires_at now = false) :
    (Svc.resolve st now code).1 =
        Except.ok { rec with click_count := rec.click_count + 1,
                             last_access_at := some (isoOfInstant now) } ∧
      Repo.get_by_code (Svc.resolve st now code).2 code =
        some { rec with click_count := rec.click_count + 1,
                        last_access_at := some (isoOfInstant now) } := by
  have hmem : rec ∈ st.rows := List.mem_of_find?_eq_some hrec
  have hfind0 : st.rows.find? (fun a => a.id == rec.id) = some rec := by
    have := find?_key_of_mem (fun r : LinkRow => r.id) st.rows hwf.2 rec hmem
    simpa using this
  have hg : ∀ a : LinkRow,
      ((if a.id == rec.id then
          ({ a with click_count := rec.click_count + 1,
                    last_access_at := some (isoOfInstant now) } : LinkRow)
        else a).id == rec.id) = (a.id == rec.id) := by
    intro a
    by_cases h : (a.id == rec.id) = true <;> simp [h]
  have hfind : (st.rows.map (fun r =>
      if r.id == rec.id then
        { r with click_count := rec.click_count + 1,
                 last_access_at := some (isoOfInstant now) }
      else r)).find? (fun r => r.id == rec.id) =
      some { rec with click_count := rec.click_count + 1,
                      last_access_at := some (isoOfInstant now) } := by
    rw [find?_map_of_pred _ _ hg st.rows, hfind0]
    simp
  have hg2 : ∀ a : LinkRow,
      ((if a.id == rec.id then
          ({ a with click_count := rec.click_count + 1,
                    last_access_at := some (isoOfInstant now) } : LinkRow)
        else a).short_code == code) = (a.short_code == code) := by
    intro a
    by_cases h : (a.id == rec.id) = true <;> simp [h]
  have hres : Svc.resolve st now code =
      (Except.ok { rec with click_count := rec.click_count + 1,
                            last_access_at := some (isoOfInstant now) },
       { st with rows := st.rows.map (fun r =>
          if r.id == rec.id then
            { r with click_count := rec.click_count + 1,
                     last_access_at := some (isoOfInstant now) }
          else r) }) := by
    unfold Svc.resolve
    rw [hrec]
    simp only [hexp, Bool.false_eq_true, if_false]
    rw [repo_update_resolve_eq, hfind]
    rfl
  constructor
  · rw [hres]
  · rw [hres]
    unfold Repo.get_by_code
    rw [find?_map_of_pred (fun r : LinkRow => r.short_code == code) _ hg2 st.rows]
    unfold Repo.get_by_code at hrec
    rw [hrec]
    simp

/-- C2 witness: resolving the live fixture returns the record with one
click and the stamped access time, matching the store. -/
theorem c2_witness :
    (Svc.resolve stLive tNow "abc123").1 = Except.ok rowLiveHit ∧
      Repo.get_by_code (Svc.resolve stLive tNow "abc123").2 "abc123" = some rowLiveHit :=
  c2_resolve_success stLive tNow "abc123" rowLive (by decide) rfl rfl

/-- C3: a resolve that fails with ExpiredError leaves the store exactly as
it was; in particular the click count and last access of the stored row
are unchanged. -/
theorem c3_expired_no_mutation (st : Store) (now : Int) (code : String)
    (h : (Svc.resolve st now code).1 = Except.error SvcErr.expired) :
    (Svc.resolve st now code).2 = st := by
  cases hrec : Repo.get_by_code st code with
  | none =>
    unfold Svc.resolve
    rw [hrec]
  | some rec =>
    unfold Svc.resolve at h ⊢
    rw [hrec] at h ⊢
    cases hie : Svc.isExpired rec.expires_at now with
    | true => simp [hie]
    | false =>
      simp only [hie, Bool.false_eq_true, if_false] at h
      exact absurd h (resolveFinish_ne_expired _)

/-- C3 witness: the failed resolve of the expired fixture leaves the store
untouched. -/
theorem c3_witness : (Svc.resolve stExpired tNow "cde345").2 = stExpired :=
  c3_expired_no_mutation stExpired tNow "cde345" rfl

/-! ## Claims about the code generator -/

/-- generate_code produces a string of the requested length. -/
theorem generate_code_length (pick : Nat → Fin 62) (n : Nat) :
    (generate_code pick n).length = n := by
  simp [generate_code, String.length]

/-- Every character of a generated code is drawn from the alphabet. -/
theorem generate_code_mem_alphabet (pick : Nat → Fin 62) (n : Nat) :
    ∀ c ∈ (generate_code pick n).toList, c ∈ ALPHABET := by
  intro c hc
  simp only [generate_code, String.toList] at hc
  rcases List.mem_map.mp hc with ⟨i, _, rfl⟩
  exact List.get_mem _ _ _

/-- If every remaining candidate collides, the loop falls through to the
length-7 fallback. -/
theorem genUniqueFrom_all_exist (picks : Nat → Nat → Fin 62) (exists_fn : String → Bool) :
    ∀ rem t, (∀ i, i < rem → exists_fn (generate_code (picks (t + i)) 6) = true) →
      genUniqueFrom picks exists_fn rem t = generate_code (picks (t + rem)) 7 := by
  intro rem
  induction rem with
  | zero => intro t _; simp [genUniqueFrom]
  | succ rem ih =>
    intro t h
    have h0 : exists_fn (generate_code (picks t) 6) = true := by
      have := h 0 (Nat.succ_pos rem)
      simpa using this
    simp only [genUniqueFrom, h0, if_true]
    rw [ih (t + 1) (fun i hi => by
      have := h (i + 1) (by omega)
      rw [show t + 1 + i = t + (i + 1) from by omega]
      exact this)]
    rw [show t + 1 + rem = t + (rem + 1) from by omega]

/-- The loop returns the first non-colliding candidate. -/
theorem genUniqueFrom_first (picks : Nat → Nat → Fin 62) (exists_fn : String → Bool) :
    ∀ rem t i0, i0 < rem →
      (∀ j, j < i0 → exists_fn (generate_code (picks (t + j)) 6) = true) →
      exists_fn (generate_code (picks (t + i0)) 6) = false →
      genUniqueFrom picks exists_fn rem t = generate_code (picks (t + i0)) 6 := by
  intro rem
  induction rem with
  | zero => intro t i0 h _ _; exact absurd h (Nat.not_lt_zero i0)
  | succ rem ih =>
    intro t i0 hlt hprev hfalse
    cases i0 with
    | zero =>
      rw [Nat.add_zero] at hfalse
      simp [genUniqueFrom, hfalse]
    | succ i0 =>
      have h0 : exists_fn (generate_code (picks t) 6) = true := by
        have := hprev 0 (Nat.succ_pos i0)
        simpa using this
      simp only [genUniqueFrom, h0, if_true]
      rw [ih (t + 1) i0 (by omega)
        (fun j hj => by
          have := hprev (j + 1) (by omega)
          rw [show t + 1 + j = t + (j + 1) from by omega]
          exact this)
        (by
          rw [show t + 1 + i0 = t + (i0 + 1) from by omega]
          exact hfalse)]
      rw [show t + 1 + i0 = t + (i0 + 1) from by omega]

/-- The loop's result either passed the existence check or is the
unchecked fallback. -/
theorem genUniqueFrom_spec (picks : Nat → Nat → Fin 62) (exists_fn : String → Bool) :
    ∀ rem t, exists_fn (genUniqueFrom picks exists_fn rem t) = false ∨
      genUniqueFrom picks exists_fn rem t = generate_code (picks (t + rem)) 7 := by
  intro rem
  induction rem with
  | zero => intro t; right; simp [genUniqueFrom]
  | succ rem ih =>
    intro t
    cases hc : exists_fn (generate_code (picks t) 6) with
    | false => left; simp [genUniqueFrom, hc]
    | true =>
      simp only [genUniqueFrom, hc, if_true]
      rcases ih (t + 1) with h | h
      · left; exact h
      · right
        rw [h, show t + 1 + rem = t + (rem + 1) from by omega]

/-- The loop's result is a generated code of length 6 or 7. -/
theorem genUniqueFrom_shape (picks : Nat → Nat → Fin 62) (exists_fn : String → Bool) :
    ∀ rem t, ∃ pk n, (n = 6 ∨ n = 7) ∧
      genUniqueFrom picks exists_fn rem t = generate_code pk n := by
  intro rem
  induction rem with
  | zero => intro t; exact ⟨picks t, 7, Or.inr rfl, rfl⟩
  | succ rem ih =>
    intro t
    cases hc : exists_fn (generate_code (picks t) 6) with
    | false => exact ⟨picks t, 6, Or.inl rfl, by simp [genUniqueFrom, hc]⟩
    | true =>
      rcases ih (t + 1) with ⟨pk, n, hn, heq⟩
      exact ⟨pk, n, hn, by simp [genUniqueFrom, hc, heq]⟩

/-- Every code generate_unique_code returns is alphanumeric of length 6
or 7. -/
theorem generate_unique_code_alnum (picks : Nat → Nat → Fin 62) (exists_fn : String → Bool)
    (mt : Nat) : isAlnumCode (generate_unique_code picks exists_fn mt) := by
  rcases genUniqueFrom_shape picks exists_fn mt 0 with ⟨pk, n, hn, heq⟩
  rw [generate_unique_code, heq]
  exact ⟨by rcases hn with h | h <;> rw [h, generate_code_length] <;> simp,
    generate_code_mem_alphabet pk n⟩

/-- C4: generate_unique_code returns the first length-6 candidate the
existence predicate rejects; if all `max_tries` candidates collide it
returns the single unchecked length-7 fallback; it never returns a code
the predicate approved at check time (only the unchecked fallback escapes
the check); and every returned code matches [A-Za-z0-9] with length 6
or 7. -/
theorem c4_generate_unique_code (picks : Nat → Nat → Fin 62) (exists_fn : String → Bool)
    (max_tries : Nat) :
    (∀ t0, t0 < max_tries →
        (∀ j, j < t0 → exists_fn (generate_code (picks j) 6) = true) →
        exists_fn (generate_code (picks t0) 6) = false →
        generate_unique_code picks exists_fn max_tries = generate_code (picks t0) 6) ∧
      ((∀ t, t < max_tries → exists_fn (generate_code (picks t) 6) = true) →
        generate_unique_code picks exists_fn max_tries = generate_code (picks max_tries) 7) ∧
      (exists_fn (generate_unique_code picks exists_fn max_tries) = true →
        generate_unique_code picks exists_fn max_tries = generate_code (picks max_tries) 7) ∧
      isAlnumCode (generate_unique_code picks exists_fn max_tries) := by
  refine ⟨?_, ?_, ?_, ?_⟩
  · intro t0 hlt hprev hfalse
    have := genUniqueFrom_first picks exists_fn max_tries 0 t0 hlt
      (fun j hj => by simpa using hprev j hj) (by simpa using hfalse)
    simpa using this
  · intro hall
    have := genUniqueFrom_all_exist picks exists_fn max_tries 0
      (fun i hi => by simpa using hall i hi)
    simpa using this
  · intro htrue
    rcases genUniqueFrom_spec picks exists_fn max_tries 0 with h | h
    · exact absurd htrue (by rw [generate_unique_code] at *; simp [h])
    · simpa using h
  · exact generate_unique_code_alnum picks exists_fn max_tries

/-- C4 witness: with a collision-free predicate the very first candidate
is returned, and it is a six-character alphanumeric code. -/
theorem c4_witness :
    generate_unique_code picksA (fun _ => false) 5 = "aaaaaa" ∧
      isAlnumCode (generate_unique_code picksA (fun _ => false) 5) :=
  ⟨by
    have h := (c4_generate_unique_code picksA (fun _ => false) 5).1 0 (by decide)
      (fun j hj => absurd hj (Nat.not_lt_zero j)) rfl
    rw [h]
    rfl,
   (c4_generate_unique_code picksA (fun _ => false) 5).2.2.2⟩

/-! ## Claims about create -/

/-- A string beginning with either scheme is non-empty. -/
theorem startswith_scheme_ne_empty (s : String)
    (h : startswith s "http://" = true ∨ startswith s "https://" = true) :
    (s == "") = false := by
  by_cases hs : s = ""
  · subst hs
    rcases h with h | h <;> exact absurd h (by decide)
  · exact beq_eq_false_iff_ne.mpr hs

/-- An absent lookup means the collision check reports no collision. -/
theorem any_eq_false_of_get_none (st : Store) (c : String)
    (h : Repo.get_by_code st c = none) :
    st.rows.any (fun r => r.short_code == c) = false := by
  rw [← Bool.not_eq_true, List.any_eq_true]
  rintro ⟨x, hx, hpx⟩
  exact List.find?_eq_none.mp h x hx hpx

/-- When the fallback code is unused, the code generate_unique_code picks
against the store's own existence check is always unused. -/
theorem generate_unique_code_fresh (st : Store) (picks : Nat → Nat → Fin 62) (mt : Nat)
    (hfb : Repo.get_by_code st (generate_code (picks mt) 7) = none) :
    Repo.get_by_code st
      (generate_unique_code picks (fun c => (Repo.get_by_code st c).isSome) mt) = none := by
  rcases genUniqueFrom_spec picks (fun c => (Repo.get_by_code st c).isSome) mt 0 with h | h
  · rw [generate_unique_code]
    cases ho : Repo.get_by_code st (genUniqueFrom picks (fun c => (Repo.get_by_code st c).isSome) mt 0) with
    | none => rfl
    | some v => simp only [ho] at h; simp at h
  · rw [generate_unique_code, h]
    simpa using hfb

/-- C5: create fails with a ValidationError whenever the target URL does
not begin with a recognized scheme (which covers the empty string), and
for every target URL beginning with http:// or https:// it succeeds
(provided the store's uniqueness backstop is not hit, i.e. the unchecked
length-7 fallback is unused), inserting a record with zero clicks and
`created_at` set to the current instant and returning a short code
matching [A-Za-z0-9] of length 6 or 7. -/
theorem c5_create (base : String) (picks : Nat → Nat → Fin 62) (st : Store) (now : Int)
    (url : String) (ea : Option String) :
    ((startswith url "http://" = false ∧ startswith url "https://" = false) →
      Svc.create base picks st now url ea = (Except.error SvcErr.validation, st)) ∧
    ((startswith url "http://" = true ∨ startswith url "https://" = true) →
      Repo.get_by_code st (generate_code (picks 5) 7) = none →
      ∃ row st', Svc.create base picks st now url ea =
          (Except.ok (Svc.shape base row), st') ∧
        row.click_count = 0 ∧ row.created_at = isoOfInstant now ∧
        row.target_url = url ∧ isAlnumCode row.short_code ∧ row ∈ st'.rows ∧
        (Svc.shape base row).click_count = 0 ∧
        (Svc.shape base row).short_code = row.short_code) := by
  constructor
  · intro h
    unfold Svc.create
    simp [h.1, h.2]
  · intro hok hfb
    have hne : (url == "") = false := startswith_scheme_ne_empty url hok
    have hcond : (url == "" ||
        !(startswith url "http://" || startswith url "https://")) = false := by
      rcases hok with h | h <;> simp [hne, h]
    have hfresh := generate_unique_code_fresh st picks 5 hfb
    have hany := any_eq_false_of_get_none st _ hfresh
    refine ⟨{ id := st.nextId,
              short_code := generate_unique_code picks
                (fun c => (Repo.get_by_code st c).isSome) 5,
              target_url := url, created_at := isoOfInstant now, expires_at := ea,
              click_count := 0, last_access_at := none },
            { rows := st.rows ++
                [{ id := st.nextId,
                   short_code := generate_unique_code picks
                     (fun c => (Repo.get_by_code st c).isSome) 5,
                   target_url := url, created_at := isoOfInstant now, expires_at := ea,
                   click_count := 0, last_access_at := none }],
              nextId := st.nextId + 1 },
            ?_, rfl, rfl, rfl,
            generate_unique_code_alnum picks (fun c => (Repo.get_by_code st c).isSome) 5,
            by simp, rfl, rfl⟩
    unfold Svc.create
    rw [hcond]
    simp only [Bool.false_eq_true, if_false]
    unfold Repo.create
    simp only [hany, Bool.false_eq_true, if_false]
    rfl

/-- C5 witness: an invalid scheme is rejected, and a valid https URL is
created against the live fixture with zero clicks and a fresh
six-character code. -/
theorem c5_witness :
    Svc.create base0 picksA stLive tNow "ftp://x.org" none =
        (Except.error SvcErr.validation, stLive) ∧
      ∃ row st', Svc.create base0 picksA stLive tNow "https://foo.org" none =
          (Except.ok (Svc.shape base0 row), st') ∧
        row.click_count = 0 ∧ row.created_at = isoOfInstant tNow ∧
        row.target_url = "https://foo.org" ∧ isAlnumCode row.short_code ∧
        row ∈ st'.rows ∧ (Svc.shape base0 row).click_count = 0 ∧
        (Svc.shape base0 row).short_code = row.short_code :=
  ⟨(c5_create base0 picksA stLive tNow "ftp://x.org" none).1 (by constructor <;> rfl),
   (c5_create base0 picksA stLive tNow "https://foo.org" none).2 (Or.inr (by rfl)) (by rfl)⟩

/-! ## Claims about the no-change update -/

/-- C6: an update in which both fields carry the NOCHANGE sentinel mutates
nothing and returns the current record, at every layer: db.update_link
re-selects by code and leaves the store untouched, the repository update
with an empty SET list re-selects by id and leaves the store untouched,
and the service update returns exactly what get returns, with the store
unchanged. -/
theorem c6_update_noop (base : String) (st : Store) (code : String) (link_id : Nat)
    (hwf : StoreWF st) :
    Db.update_link st code Sentinel.nochange Sentinel.nochange =
        (Except.ok (Db.get_by_code st code), st) ∧
      Repo.update st link_id {} =
        (Except.ok (st.rows.find? (fun r => r.id == link_id)), st) ∧
      Svc.update base st code Sentinel.nochange Sentinel.nochange =
        (Svc.get base st code, st) := by
  refine ⟨rfl, rfl, ?_⟩
  cases hrec : Repo.get_by_code st code with
  | none =>
    unfold Svc.update Svc.get
    rw [hrec]
  | some rec =>
    have hmem : rec ∈ st.rows := List.mem_of_find?_eq_some hrec
    have hfind0 : st.rows.find? (fun a => a.id == rec.id) = some rec := by
      have := find?_key_of_mem (fun r : LinkRow => r.id) st.rows hwf.2 rec hmem
      simpa using this
    unfold Svc.update Svc.get
    rw [hrec]
    show Svc.updateFinish base
        (Except.ok (st.rows.find? (fun r => r.id == rec.id)), st) = _
    rw [hfind0]
    rfl

/-- C6 witness: the no-change update of the live fixture returns the
stored record and leaves the store identical. -/
theorem c6_witness :
    Db.update_link stLive "abc123" Sentinel.nochange Sentinel.nochange =
        (Except.ok (Db.get_by_code stLive "abc123"), stLive) ∧
      Repo.update stLive 1 {} =
        (Except.ok (stLive.rows.find? (fun r => r.id == 1)), stLive) ∧
      Svc.update base0 stLive "abc123" Sentinel.nochange Sentinel.nochange =
        (Svc.get base0 stLive "abc123", stLive) :=
  c6_update_noop base0 stLive "abc123" 1 (by decide)

/-! ## Claims about the explicit-null target_url update -/

/-- C9 (amended): update with target_url explicitly null does not raise a
ValidationError; the service passes the null through to the store, whose
NOT NULL constraint rejects the write as a storage error, so the store is
unchanged and a null target_url is never stored (the required-field
invariant survives, but through an unhandled constraint violation rather
than validation). -/
theorem c9_null_target (base : String) (st : Store) (code : String) (ea : Sentinel String)
    (rec : LinkRow) (hrec : Repo.get_by_code st code = some rec) :
    Svc.update base st code (Sentinel.val none) ea =
      (Except.error (SvcErr.storage DbErr.notNull), st) := by
  have hmem : rec ∈ st.rows := List.mem_of_find?_eq_some hrec
  have hany : st.rows.any (fun r => r.id == rec.id) = true :=
    List.any_eq_true.mpr ⟨rec, hmem, by simp⟩
  unfold Svc.update
  rw [hrec]
  show Svc.updateFinish base
      (Repo.update st rec.id
        { target_url := some none, expires_at := Svc.sentinelField ea }) = _
  unfold Repo.update
  simp only [hany]
  rfl

/-- C9 counterexample to the claim as stated: updating the live fixture
with an explicitly null target_url does not fail with a ValidationError;
it fails with the store's NOT NULL constraint violation (an unhandled
storage error), leaving the store unchanged. -/
theorem c9_counterexample :
    Svc.update base0 stLive "abc123" (Sentinel.val none) Sentinel.nochange =
        (Except.error (SvcErr.storage DbErr.notNull), stLive) ∧
      (Svc.update base0 stLive "abc123" (Sentinel.val none) Sentinel.nochange).1 ≠
        Except.error SvcErr.validation :=
  ⟨rfl, by decide⟩

/-- C9 witness: the explicit-null update of the empty-expiry fixture
produces the storage failure and leaves the store untouched. -/
theorem c9_witness :
    Svc.update base0 stEmptyExp "bcd234" (Sentinel.val none) Sentinel.nochange =
      (Except.error (SvcErr.storage DbErr.notNull), stEmptyExp) :=
  c9_null_target base0 stEmptyExp "bcd234" Sentinel.nochange rowEmptyExp rfl

/-! ## Claims about shaping -/

/-- A successful create tail comes from a successful insert, and the
output is the shaped row. -/
theorem createFinish_ok (base : String) (x : Except DbErr LinkRow × Store)
    (out : LinkOut) (st' : Store) (h : Svc.createFinish base x = (Except.ok out, st')) :
    ∃ row, x = (Except.ok row, st') ∧ out = Svc.shape base row := by
  rcases x with ⟨e | row, st2⟩
  · simp [Svc.createFinish] at h
  · simp only [Svc.createFinish, Prod.mk.injEq, Except.ok.injEq] at h
    exact ⟨row, by rw [h.2], h.1.symm⟩

/-- A successful update tail comes from a re-selected row, and the output
is that row shaped. -/
theorem updateFinish_ok (base : String) (x : Except DbErr (Option LinkRow) × Store)
    (out : LinkOut) (st' : Store) (h : Svc.updateFinish base x = (Except.ok out, st')) :
    ∃ row, x = (Except.ok (some row), st') ∧ out = Svc.shape base row := by
  rcases x with ⟨e | (_ | row), st2⟩
  · simp [Svc.updateFinish] at h
  · simp [Svc.updateFinish] at h
  · simp only [Svc.updateFinish, Prod.mk.injEq, Except.ok.injEq] at h
    exact ⟨row, by rw [h.2], h.1.symm⟩

/-- A successful resolve tail is exactly the re-selected row, unshaped. -/
theorem resolveFinish_ok (x : Except DbErr (Option LinkRow) × Store)
    (row : LinkRow) (st' : Store) (h : Svc.resolveFinish x = (Except.ok row, st')) :
    x = (Except.ok (some row), st') := by
  rcases x with ⟨e | (_ | r), st2⟩
  · simp [Svc.resolveFinish] at h
  · simp [Svc.resolveFinish] at h
  · simp only [Svc.resolveFinish, Prod.mk.injEq, Except.ok.injEq] at h
    rw [h.1, h.2]

/-- The row a successful repository update returns is a stored row of the
post-state. -/
theorem repo_update_ok_mem (st : Store) (lid : Nat) (d : Repo.UpdateData)
    (row : LinkRow) (st' : Store)
    (h : Repo.update st lid d = (Except.ok (some row), st')) : row ∈ st'.rows := by
  unfold Repo.update at h
  by_cases h1 : (d.target_url.isNone && d.expires_at.isNone && d.clicks.isNone &&
      d.last_access_at.isNone) = true
  · simp only [h1, if_true] at h
    rw [Prod.mk.injEq] at h
    obtain ⟨ha, hb⟩ := h
    injection ha with ha
    subst hb
    exact List.mem_of_find?_eq_some ha
  · rw [Bool.not_eq_true] at h1
    simp only [h1, Bool.false_eq_true, if_false] at h
    by_cases h2 : (d.target_url == some none && st.rows.any fun r => r.id == lid) = true
    · simp only [h2, if_true] at h
      simp at h
    · rw [Bool.not_eq_true] at h2
      simp only [h2, Bool.false_eq_true, if_false] at h
      rw [Prod.mk.injEq] at h
      obtain ⟨ha, hb⟩ := h
      injection ha with ha
      subst hb
      exact List.mem_of_find?_eq_some ha

/-- The row a successful insert returns is a stored row of the
post-state. -/
theorem repo_create_ok_mem (st : Store) (data : Repo.CreateData)
    (row : LinkRow) (st' : Store)
    (h : Repo.create st data = (Except.ok row, st')) : row ∈ st'.rows := by
  unfold Repo.create at h
  by_cases hc : (st.rows.any fun r => r.short_code == data.short_code) = true
  · simp only [hc, if_true] at h
    simp at h
  · rw [Bool.not_eq_true] at hc
    simp only [hc, Bool.false_eq_true, if_false] at h
    rw [Prod.mk.injEq] at h
    obtain ⟨ha, hb⟩ := h
    injection ha with ha
    subst ha
    rw [← hb]
    simp

/-- C7 (amended): create, get, list and update return records in the
shaped public representation, the image of `_shape` over a stored row
(carrying the derived short_url, parsed timestamps and the click_count
field); resolve does not: it returns the raw repository record, a stored
row whose dict keeps the raw `clicks` key and has no `short_url` at
all. -/
theorem c7_shaping (base : String) (picks : Nat → Nat → Fin 62) (st : Store) (now : Int)
    (code url : String) (ea : Option String) (tu ea2 : Sentinel String)
    (limit offset : Nat) :
    (∀ out, Svc.get base st code = Except.ok out →
        ∃ r, Repo.get_by_code st code = some r ∧ out = Svc.shape base r) ∧
      Svc.list base st limit offset = (Repo.list st limit offset).map (Svc.shape base) ∧
      (∀ out st', Svc.create base picks st now url ea = (Except.ok out, st') →
        ∃ r, r ∈ st'.rows ∧ out = Svc.shape base r) ∧
      (∀ out st', Svc.update base st code tu ea2 = (Except.ok out, st') →
        ∃ r, r ∈ st'.rows ∧ out = Svc.shape base r) ∧
      (∀ row st', Svc.resolve st now code = (Except.ok row, st') →
        row ∈ st'.rows ∧ (row.toDict).lookup "short_url" = none ∧
          (row.toDict).lookup "clicks" = some (Val.vNat row.click_count)) := by
  refine ⟨?_, rfl, ?_, ?_, ?_⟩
  · intro out h
    cases hrec : Repo.get_by_code st code with
    | none => unfold Svc.get at h; rw [hrec] at h; simp at h
    | some rec =>
      unfold Svc.get at h
      rw [hrec] at h
      injection h with h
      exact ⟨rec, rfl, h.symm⟩
  · intro out st' h
    unfold Svc.create at h
    by_cases hcond : (url == "" ||
        !(startswith url "http://" || startswith url "https://")) = true
    · simp only [hcond, if_true] at h
      simp at h
    · rw [Bool.not_eq_true] at hcond
      simp only [hcond, Bool.false_eq_true, if_false] at h
      rcases createFinish_ok base _ out st' h with ⟨row, hx, hout⟩
      exact ⟨row, repo_create_ok_mem st _ row st' hx, hout⟩
  · intro out st' h
    cases hrec : Repo.get_by_code st code with
    | none => unfold Svc.update at h; rw [hrec] at h; simp at h
    | some rec =>
      unfold Svc.update at h
      rw [hrec] at h
      by_cases hv : Svc.updateValidationFails tu = true
      · simp only [hv, if_true] at h
        simp at h
      · rw [Bool.not_eq_true] at hv
        simp only [hv, Bool.false_eq_true, if_false] at h
        rcases updateFinish_ok base _ out st' h with ⟨row, hx, hout⟩
        exact ⟨row, repo_update_ok_mem st _ _ row st' hx, hout⟩
  · intro row st' h
    cases hrec : Repo.get_by_code st code with
    | none => unfold Svc.resolve at h; rw [hrec] at h; simp at h
    | some rec =>
      unfold Svc.resolve at h
      rw [hrec] at h
      by_cases hie : Svc.isExpired rec.expires_at now = true
      · simp only [hie, if_true] at h
        simp at h
      · rw [Bool.not_eq_true] at hie
        simp only [hie, Bool.false_eq_true, if_false] at h
        have h2 := resolveFinish_ok _ row st' h
        exact ⟨repo_update_ok_mem st _ _ row st' h2, rfl, rfl⟩

/-- C7 counterexample to the claim as stated: the record returned by a
successful resolve is the raw repository dict, which has no `short_url`
key, no `click_count` key, and the raw `clicks` key instead, so resolve's
return value does not carry the shaped representation. -/
theorem c7_counterexample :
    (Svc.resolve stLive tNow "abc123").1 = Except.ok rowLiveHit ∧
      (rowLiveHit.toDict).lookup "short_url" = none ∧
      (rowLiveHit.toDict).lookup "click_count" = none ∧
      (rowLiveHit.toDict).lookup "clicks" = some (Val.vNat 1) :=
  ⟨rfl, rfl, rfl, rfl⟩

/-- C7 witness: on the live fixture, get returns the shaped stored record
and resolve's returned record sits raw in the post-state store. -/
theorem c7_witness :
    (∃ r, Repo.get_by_code stLive "abc123" = some r ∧
        Svc.shape base0 rowLive = Svc.shape base0 r) ∧
      (rowLiveHit ∈ (Svc.resolve stLive tNow "abc123").2.rows ∧
        (rowLiveHit.toDict).lookup "short_url" = none ∧
        (rowLiveHit.toDict).lookup "clicks" = some (Val.vNat rowLiveHit.click_count)) :=
  ⟨(c7_shaping base0 picksA stLive tNow "abc123" "https://x.org" none
      Sentinel.nochange Sentinel.nochange 100 0).1 (Svc.shape base0 rowLive) rfl,
   (c7_shaping base0 picksA stLive tNow "abc123" "https://x.org" none
      Sentinel.nochange Sentinel.nochange 100 0).2.2.2.2 rowLiveHit
      (Svc.resolve stLive tNow "abc123").2 rfl⟩

/-! ## Frame lemmas for keyed mutations -/

/-- The update tails pass the post-state through unchanged. -/
theorem updateFinish_snd (base : String) (x : Except DbErr (Option LinkRow) × Store) :
    (Svc.updateFinish base x).2 = x.2 := by
  rcases x with ⟨e | (_ | r), st2⟩ <;> rfl

/-- The resolve tail passes the post-state through unchanged. -/
theorem resolveFinish_snd (x : Except DbErr (Option LinkRow) × Store) :
    (Svc.resolveFinish x).2 = x.2 := by
  rcases x with ⟨e | (_ | r), st2⟩ <;> rfl

/-- The create tail passes the post-state through unchanged. -/
theorem createFinish_snd (base : String) (x : Except DbErr LinkRow × Store) :
    (Svc.createFinish base x).2 = x.2 := by
  rcases x with ⟨e | r, st2⟩ <;> rfl

/-- The db-layer SET clause never changes the short code. -/
theorem applySets_short_code (tu ea : Sentinel String) (r : LinkRow) :
    (Db.applySets tu ea r).short_code = r.short_code := by
  rcases tu with _ | (_ | u) <;> rcases ea with _ | v <;> rfl

/-- In a well-formed store, a row with a different short code than the one
a lookup resolved has a different id as well. -/
theorem id_ne_of_code_ne (st : Store) (hwf : StoreWF st) (code : String) (rec : LinkRow)
    (hrec : Repo.get_by_code st code = some rec) :
    ∀ a ∈ st.rows, (a.short_code == code) = false → (a.id == rec.id) = false := by
  intro a ha hcode
  have hmem : rec ∈ st.rows := List.mem_of_find?_eq_some hrec
  have hrc : (rec.short_code == code) = true := by
    have h2 : st.rows.find? (fun r => r.short_code == code) = some rec := hrec
    have h3 := List.find?_some h2
    simpa using h3
  rw [beq_eq_false_iff_ne]
  intro hid
  have haeq : a = rec := eq_of_mem_key (fun r : LinkRow => r.id) st.rows hwf.2 a ha rec hmem hid
  subst haeq
  rw [hrc] at hcode
  cases hcode

/-- A map keyed by short code that preserves short codes leaves all
other-coded rows exactly as they were. -/
theorem frame_map_code (code : String) (f : LinkRow → LinkRow)
    (hf : ∀ a, (f a).short_code = a.short_code) (rows : List LinkRow) :
    (rows.map (fun r => if r.short_code == code then f r else r)).filter
        (fun r => !(r.short_code == code)) =
      rows.filter (fun r => !(r.short_code == code)) := by
  apply filter_map_eq
  · intro a _
    by_cases h : (a.short_code == code) = true <;> simp [h, hf]
  · intro a _ hp
    have h : (a.short_code == code) = false := by simpa using hp
    simp [h]

/-- A repository update keyed by an id that only rows of the given code
can carry leaves all other-coded rows exactly as they were. -/
theorem repo_update_frame (st : Store) (lid : Nat) (d : Repo.UpdateData) (code : String)
    (hother : ∀ a ∈ st.rows, (a.short_code == code) = false → (a.id == lid) = false) :
    othersByCode code (Repo.update st lid d).2 = othersByCode code st := by
  unfold Repo.update
  by_cases h1 : (d.target_url.isNone && d.expires_at.isNone && d.clicks.isNone &&
      d.last_access_at.isNone) = true
  · simp only [h1, if_true]
  · rw [Bool.not_eq_true] at h1
    simp only [h1, Bool.false_eq_true, if_false]
    by_cases h2 : (d.target_url == some none && st.rows.any fun r => r.id == lid) = true
    · simp only [h2, if_true]
    · rw [Bool.not_eq_true] at h2
      simp only [h2, Bool.false_eq_true, if_false]
      unfold othersByCode
      apply filter_map_eq
      · intro a _
        by_cases h : (a.id == lid) = true <;> simp [h, applyData_short_code]
      · intro a ha hp
        have h : (a.short_code == code) = false := by simpa using hp
        simp [hother a ha h]

/-- C10: every mutating operation keyed by a short code touches only the
row carrying that code: the list of all other stored rows is unchanged by
the service update, delete and resolve, and by the db-layer field update,
click increment, last-access stamp, delete and redirect handler. -/
theorem c10_frame (base : String) (st : Store) (now : Int) (code iso : String)
    (tu ea : Sentinel String) (hwf : StoreWF st) :
    othersByCode code (Svc.update base st code tu ea).2 = othersByCode code st ∧
      othersByCode code (Svc.delete st code).2 = othersByCode code st ∧
      othersByCode code (Svc.resolve st now code).2 = othersByCode code st ∧
      othersByCode code (Db.update_link st code tu ea).2 = othersByCode code st ∧
      othersByCode code (Db.increment_click st code) = othersByCode code st ∧
      othersByCode code (Db.update_last_access st code iso) = othersByCode code st ∧
      othersByCode code (Db.delete_link st code).2 = othersByCode code st ∧
      othersByCode code (Db.redirect st now code).2 = othersByCode code st := by
  have hinc : ∀ st0 : Store, othersByCode code (Db.increment_click st0 code) =
      othersByCode code st0 := by
    intro st0
    exact frame_map_code code
      (fun r => { r with click_count := r.click_count + 1 }) (fun a => rfl) st0.rows
  have hlast : ∀ (st0 : Store) (x : String),
      othersByCode code (Db.update_last_access st0 code x) = othersByCode code st0 := by
    intro st0 x
    exact frame_map_code code
      (fun r => { r with last_access_at := some x }) (fun a => rfl) st0.rows
  refine ⟨?_, ?_, ?_, ?_, hinc st, hlast st iso, ?_, ?_⟩
  · cases hrec : Repo.get_by_code st code with
    | none =>
      unfold Svc.update
      rw [hrec]
    | some rec =>
      unfold Svc.update
      rw [hrec]
      by_cases hv : Svc.updateValidationFails tu = true
      · simp only [hv, if_true]
      · rw [Bool.not_eq_true] at hv
        simp only [hv, Bool.false_eq_true, if_false]
        rw [updateFinish_snd]
        exact repo_update_frame st rec.id _ code (id_ne_of_code_ne st hwf code rec hrec)
  · cases hrec : Repo.get_by_code st code with
    | none =>
      unfold Svc.delete
      rw [hrec]
    | some rec =>
      unfold Svc.delete
      rw [hrec]
      show othersByCode code (Repo.delete st rec.id) = _
      unfold Repo.delete othersByCode
      exact filter_filter_eq _ _ st.rows (fun a ha hp => by
        have h : (a.short_code == code) = false := by simpa using hp
        simp [id_ne_of_code_ne st hwf code rec hrec a ha h])
  · cases hrec : Repo.get_by_code st code with
    | none =>
      unfold Svc.resolve
      rw [hrec]
    | some rec =>
      unfold Svc.resolve
      rw [hrec]
      by_cases hie : Svc.isExpired rec.expires_at now = true
      · simp only [hie, if_true]
      · rw [Bool.not_eq_true] at hie
        simp only [hie, Bool.false_eq_true, if_false]
        rw [resolveFinish_snd]
        exact repo_update_frame st rec.id _ code (id_ne_of_code_ne st hwf code rec hrec)
  · unfold Db.update_link
    by_cases h1 : (tu = Sentinel.nochange ∧ ea = Sentinel.nochange)
    · simp only [if_pos h1]
    · simp only [if_neg h1]
      by_cases h2 : (st.rows.any fun r => r.short_code == code) = true
      · simp only [h2, if_true]
        by_cases h3 : tu = Sentinel.val none
        · simp only [if_pos h3]
        · simp only [if_neg h3]
          exact frame_map_code code (Db.applySets tu ea) (applySets_short_code tu ea) st.rows
      · rw [Bool.not_eq_true] at h2
        simp only [h2, Bool.false_eq_true, if_false]
  · unfold Db.delete_link othersByCode
    exact filter_filter_eq _ _ st.rows (fun a _ hp => hp)
  · cases hrec : Db.get_by_code st code with
    | none =>
      unfold Db.redirect
      rw [hrec]
    | some rec =>
      have hhit : othersByCode code (Db.redirectHit st now code rec).2 =
          othersByCode code st := by
        show othersByCode code
          (Db.update_last_access (Db.increment_click st code) code (isoOfInstant now)) =
            othersByCode code st
        rw [hlast, hinc]
      unfold Db.redirect
      rw [hrec]
      cases hchk : Db.redirectCheck rec.expires_at now with
      | none => simp [hchk]
      | some b =>
        cases b with
        | true => simp [hchk]
        | false =>
          simp only [hchk]
          exact hhit

/-- C10 witness: on the two-row store, mutating one code leaves the other
row untouched across all keyed operations. -/
theorem c10_witness :
    othersByCode "abc123"
        (Svc.update base0 stTwo "abc123" Sentinel.nochange Sentinel.nochange).2 =
      othersByCode "abc123" stTwo ∧
    othersByCode "abc123" (Svc.resolve stTwo tNow "abc123").2 =
      othersByCode "abc123" stTwo ∧
    othersByCode "abc123" (Db.increment_click stTwo "abc123") =
      othersByCode "abc123" stTwo :=
  ⟨(c10_frame base0 stTwo tNow "abc123" "x" Sentinel.nochange Sentinel.nochange
      (by decide)).1,
   (c10_frame base0 stTwo tNow "abc123" "x" Sentinel.nochange Sentinel.nochange
      (by decide)).2.2.1,
   (c10_frame base0 stTwo tNow "abc123" "x" Sentinel.nochange Sentinel.nochange
      (by decide)).2.2.2.2.1⟩

/-! ## Click-count monotonicity -/

/-- Pairing rows by short code in a post-state that is a subset of the
pre-state: the click counts agree. -/
theorem clickFrame_sub (st : Store)
    (hcodes : st.rows.Pairwise (fun a b => a.short_code ≠ b.short_code))
    (l' : List LinkRow) (hsub : ∀ x ∈ l', x ∈ st.rows) :
    ∀ r' ∈ l', ∀ r ∈ st.rows, r.short_code = r'.short_code →
      r.click_count ≤ r'.click_count ∧ r'.click_count = r.click_count := by
  intro r' h' r h hc
  have : r = r' := eq_of_mem_key (fun x : LinkRow => x.short_code) st.rows hcodes
    r h r' (hsub r' h') hc
  subst this
  exact ⟨Nat.le_refl _, rfl⟩

/-- Pairing rows by short code across a code-preserving map that never
decreases the click count. -/
theorem clickFrame_map_le (st : Store)
    (hcodes : st.rows.Pairwise (fun a b => a.short_code ≠ b.short_code))
    (g : LinkRow → LinkRow) (hc : ∀ a, (g a).short_code = a.short_code)
    (hle : ∀ a ∈ st.rows, a.click_count ≤ (g a).click_count) :
    ∀ r' ∈ st.rows.map g, ∀ r ∈ st.rows, r.short_code = r'.short_code →
      r.click_count ≤ r'.click_count := by
  intro r' h' r h hcode
  rcases List.mem_map.mp h' with ⟨a, ha, rfl⟩
  have : r = a := eq_of_mem_key (fun x : LinkRow => x.short_code) st.rows hcodes
    r h a ha (by show r.short_code = a.short_code; rw [hcode, hc])
  subst this
  exact hle r h

/-- Pairing rows by short code across a code- and click-preserving map. -/
theorem clickFrame_map_eq (st : Store)
    (hcodes : st.rows.Pairwise (fun a b => a.short_code ≠ b.short_code))
    (g : LinkRow → LinkRow) (hc : ∀ a, (g a).short_code = a.short_code)
    (heq : ∀ a ∈ st.rows, (g a).click_count = a.click_count) :
    ∀ r' ∈ st.rows.map g, ∀ r ∈ st.rows, r.short_code = r'.short_code →
      r.click_count ≤ r'.click_count ∧ r'.click_count = r.click_count := by
  intro r' h' r h hcode
  rcases List.mem_map.mp h' with ⟨a, ha, rfl⟩
  have : r = a := eq_of_mem_key (fun x : LinkRow => x.short_code) st.rows hcodes
    r h a ha (by show r.short_code = a.short_code; rw [hcode, hc])
  subst this
  exact ⟨Nat.le_of_eq (heq r h).symm, heq r h⟩

/-- Pairing rows by short code after appending a row whose code collides
with no stored one. -/
theorem clickFrame_append (st : Store)
    (hcodes : st.rows.Pairwise (fun a b => a.short_code ≠ b.short_code))
    (new : LinkRow)
    (hnew : st.rows.any (fun r => r.short_code == new.short_code) = false) :
    ∀ r' ∈ st.rows ++ [new], ∀ r ∈ st.rows, r.short_code = r'.short_code →
      r.click_count ≤ r'.click_count ∧ r'.click_count = r.click_count := by
  intro r' h' r h hc
  rcases List.mem_append.mp h' with h' | h'
  · exact clickFrame_sub st hcodes st.rows (fun x hx => hx) r' h' r h hc
  · have : r' = new := by simpa using h'
    subst this
    exfalso
    rw [← Bool.not_eq_true, List.any_eq_true] at hnew
    exact hnew ⟨r, h, by rw [hc]; simp⟩

/-- applyData preserves the click count when the update dict does not
carry the clicks key. -/
theorem applyData_click_none (d : Repo.UpdateData) (r : LinkRow) (h : d.clicks = none) :
    (Repo.applyData d r).click_count = r.click_count := by
  rcases d with ⟨tu, ea, ck, la⟩
  cases ck with
  | some n => cases h
  | none =>
    rcases tu with _ | (_ | u) <;> rcases ea with _ | ev <;> rcases la with _ | lv <;> rfl

/-- A repository update without the clicks key preserves every row's click
count (by-code pairing). -/
theorem clickFrame_repo_update (st : Store)
    (hcodes : st.rows.Pairwise (fun a b => a.short_code ≠ b.short_code))
    (lid : Nat) (d : Repo.UpdateData) (hck : d.clicks = none) :
    ∀ r' ∈ (Repo.update st lid d).2.rows, ∀ r ∈ st.rows, r.short_code = r'.short_code →
      r.click_count ≤ r'.click_count ∧ r'.click_count = r.click_count := by
  unfold Repo.update
  by_cases h1 : (d.target_url.isNone && d.expires_at.isNone && d.clicks.isNone &&
      d.last_access_at.isNone) = true
  · simp only [h1, if_true]
    exact clickFrame_sub st hcodes st.rows (fun x hx => hx)
  · rw [Bool.not_eq_true] at h1
    simp only [h1, Bool.false_eq_true, if_false]
    by_cases h2 : (d.target_url == some none && st.rows.any fun r => r.id == lid) = true
    · simp only [h2, if_true]
      exact clickFrame_sub st hcodes st.rows (fun x hx => hx)
    · rw [Bool.not_eq_true] at h2
      simp only [h2, Bool.false_eq_true, if_false]
      refine clickFrame_map_eq st hcodes _ ?_ ?_
      · intro a
        by_cases h : (a.id == lid) = true <;> simp [h, applyData_short_code]
      · intro a _
        by_cases h : (a.id == lid) = true <;> simp [h, applyData_click_none d a hck]

/-- C8: the click count never decreases and only the redirect-resolution
path changes it: across every public operation, a stored row pairs by
short code with a post-state row of click count at least as large, and for
every operation other than resolve and the redirect handler the click
count is exactly unchanged. -/
theorem c8_click_monotone (base : String) (picks : Nat → Nat → Fin 62) (now : Int)
    (st : Store) (op : SvcOp) (hwf : StoreWF st) :
    ∀ r' ∈ (applyOp base picks now st op).rows, ∀ r ∈ st.rows,
      r.short_code = r'.short_code →
        r.click_count ≤ r'.click_count ∧
          (op.isClickPath = false → r'.click_count = r.click_count) := by
  have hid : ∀ r' ∈ st.rows, ∀ r ∈ st.rows, r.short_code = r'.short_code →
      r.click_count ≤ r'.click_count ∧
        (op.isClickPath = false → r'.click_count = r.click_count) :=
    fun r' h' r h hc =>
      ⟨(clickFrame_sub st hwf.1 st.rows (fun x hx => hx) r' h' r h hc).1,
       fun _ => (clickFrame_sub st hwf.1 st.rows (fun x hx => hx) r' h' r h hc).2⟩
  cases op with
  | get code => exact hid
  | listOp limit offset => exact hid
  | create url ea =>
    simp only [applyOp]
    unfold Svc.create
    by_cases hcond : (url == "" ||
        !(startswith url "http://" || startswith url "https://")) = true
    · simp only [hcond, if_true]
      exact hid
    · rw [Bool.not_eq_true] at hcond
      simp only [hcond, Bool.false_eq_true, if_false]
      rw [createFinish_snd]
      unfold Repo.create
      by_cases hc : (st.rows.any fun r =>
          r.short_code == generate_unique_code picks
            (fun c => (Repo.get_by_code st c).isSome) 5) = true
      · simp only [hc, if_true]
        exact hid
      · rw [Bool.not_eq_true] at hc
        simp only [hc, Bool.false_eq_true, if_false]
        intro r' h' r h hcode
        refine ⟨(clickFrame_append st hwf.1 _ hc r' h' r h hcode).1,
          fun _ => (clickFrame_append st hwf.1 _ hc r' h' r h hcode).2⟩
  | update code tu ea =>
    simp only [applyOp]
    cases hrec : Repo.get_by_code st code with
    | none =>
      unfold Svc.update
      rw [hrec]
      exact hid
    | some rec =>
      unfold Svc.update
      rw [hrec]
      by_cases hv : Svc.updateValidationFails tu = true
      · simp only [hv, if_true]
        exact hid
      · rw [Bool.not_eq_true] at hv
        simp only [hv, Bool.false_eq_true, if_false]
        rw [updateFinish_snd]
        intro r' h' r h hcode
        have hres := clickFrame_repo_update st hwf.1 rec.id
          { target_url := Svc.sentinelField tu, expires_at := Svc.sentinelField ea }
          rfl r' h' r h hcode
        exact ⟨hres.1, fun _ => hres.2⟩
  | delete code =>
    simp only [applyOp]
    cases hrec : Repo.get_by_code st code with
    | none =>
      unfold Svc.delete
      rw [hrec]
      exact hid
    | some rec =>
      unfold Svc.delete
      rw [hrec]
      intro r' h' r h hcode
      have h'' : r' ∈ st.rows := List.mem_of_mem_filter h'
      refine ⟨(clickFrame_sub st hwf.1 st.rows (fun x hx => hx) r' h'' r h hcode).1,
        fun _ => (clickFrame_sub st hwf.1 st.rows (fun x hx => hx) r' h'' r h hcode).2⟩
  | resolve code =>
    simp only [applyOp]
    cases hrec : Repo.get_by_code st code with
    | none =>
      unfold Svc.resolve
      rw [hrec]
      exact hid
    | some rec =>
      have hmem : rec ∈ st.rows := List.mem_of_find?_eq_some hrec
      unfold Svc.resolve
      rw [hrec]
      by_cases hie : Svc.isExpired rec.expires_at now = true
      · simp only [hie, if_true]
        exact hid
      · rw [Bool.not_eq_true] at hie
        simp only [hie, Bool.false_eq_true, if_false]
        rw [resolveFinish_snd, repo_update_resolve_eq]
        intro r' h' r h hcode
        refine ⟨clickFrame_map_le st hwf.1 _ ?_ ?_ r' h' r h hcode,
          fun hfalse => nomatch hfalse⟩
        · intro a
          by_cases hb : (a.id == rec.id) = true <;> simp [hb]
        · intro a ha
          by_cases hb : (a.id == rec.id) = true
          · have haid : a.id = rec.id := eq_of_beq hb
            have : a = rec := eq_of_mem_key (fun x : LinkRow => x.id) st.rows hwf.2
              a ha rec hmem haid
            subst this
            simp [hb]
          · rw [Bool.not_eq_true] at hb
            simp [hb]
  | redirect code =>
    simp only [applyOp]
    cases hrec : Db.get_by_code st code with
    | none =>
      unfold Db.redirect
      rw [hrec]
      exact hid
    | some rec =>
      unfold Db.redirect
      rw [hrec]
      cases hchk : Db.redirectCheck rec.expires_at now with
      | none => simp only [hchk]; exact hid
      | some b =>
        cases b with
        | true => simp only [hchk]; exact hid
        | false =>
          simp only [hchk]
          show ∀ r' ∈ ((st.rows.map (fun r =>
              if r.short_code == code then
                { r with click_count := r.click_count + 1 } else r)).map (fun r =>
              if r.short_code == code then
                { r with last_access_at := some (isoOfInstant now) } else r)), _
          rw [List.map_map]
          intro r' h' r h hcode
          refine ⟨clickFrame_map_le st hwf.1 _ ?_ ?_ r' h' r h hcode,
            fun hfalse => nomatch hfalse⟩
          · intro a
            by_cases hb : (a.short_code == code) = true <;> simp [hb, Function.comp]
          · intro a _
            by_cases hb : (a.short_code == code) = true <;>
              simp [hb, Function.comp]

/-- C8 witness: on the two-row store, a resolve of one code does not
decrease any click count, and a no-change update leaves the other row's
click count exactly unchanged. -/
theorem c8_witness :
    (rowLive.click_count ≤ rowLiveHit.click_count ∧
        ((SvcOp.resolve "abc123").isClickPath = false →
          rowLiveHit.click_count = rowLive.click_count)) ∧
      (rowEmptyExp.click_count ≤ rowEmptyExp.click_count ∧
        ((SvcOp.update "abc123" Sentinel.nochange Sentinel.nochange).isClickPath = false →
          rowEmptyExp.click_count = rowEmptyExp.click_count)) :=
  ⟨c8_click_monotone base0 picksA tNow stTwo (SvcOp.resolve "abc123") (by decide)
      rowLiveHit (by decide) rowLive (by decide) rfl,
   c8_click_monotone base0 picksA tNow stTwo
      (SvcOp.update "abc123" Sentinel.nochange Sentinel.nochange) (by decide)
      rowEmptyExp (by decide) rowEmptyExp (by decide) rfl⟩

end TinyLink
